import Mathlib

/-!
# placetime-ptserver: the multiplexed search (search.go)

A shallow embedding of `MultiplexedSearch` and of the three provider adapters
`searchYoutubeVidoes`, `searchEventfulEvents` and `searchSpotifyTracks`.

* The two channels of `MultiplexedSearch` are represented by the trace of what
  the `select` statement receives, one `ChanEvent` per completed `select`.
* The goroutines of lines 83-85 are represented by a schedule of steps: the
  loop entering an iteration, and a goroutine evaluating `f(srch)`.
* The calls into other packages (the provider clients, `md5`, `time.Parse`,
  the configuration) are parameters, gathered in `Env`.
-/

namespace Search

/-! ## Data model -/

/-- The fields of `datastore.Item` that search.go fills in. -/
structure Item where
  Id : String
  Pid : String
  Event : Int
  Text : String
  Link : String
  Media : String
  Image : String
  Duration : Int
  deriving DecidableEq, Repr

/-- The Go type `SearchResults`, a wrapper with the single field `Results`. -/
structure SearchResults (ρ : Type) where
  Results : ρ
  deriving DecidableEq, Repr

/-- One completed `select` of the collection loop: either a value received on
`items`, or the tick of the `time.After` channel. -/
inductive ChanEvent (α : Type) where
  | result (r : List α)
  | timeout
  deriving DecidableEq, Repr

/-! ## MultiplexedSearch -/

/-- The collection loop, lines 90-98:
`for i := 0; i < len(searches); i++ { select { ... } }`.
The first argument is the number of iterations still to run,
`len(searches) - i`.  Each iteration completes one `select`, so it consumes the
next event of the trace.  The `break` of the timeout case leaves the `select`
statement only, so the iteration ends and the `for` loop goes on.
The result is the final `lists` and the part of the trace that was not
received; `none` means the trace ended while a `select` was still waiting. -/
def collectLoop {α : Type} : Nat → List (ChanEvent α) → List (List α) →
    Option (List (List α) × List (ChanEvent α))
  | 0, events, lists => some (lists, events)
  | _ + 1, [], _ => none
  | n + 1, ChanEvent.result r :: events, lists => collectLoop n events (lists ++ [r])
  | n + 1, ChanEvent.timeout :: events, lists => collectLoop n events lists

/-- The inner loop of the merge, lines 104-109: one pass over `lists` at
index `i`, from the state `(results, added)` with `added = false`. -/
def mergePass {α : Type} (lists : List (List α)) (i : Nat) (results : List α) :
    List α × Bool :=
  lists.foldl
    (fun st list =>
      if h : i < list.length then (st.1 ++ [list[i]], true) else st)
    (results, false)

/-- The outer loop of the merge, lines 100-111: `for added { ... i++ }`.
The entry test holds the first time (`added := true`), afterwards it is the
flag of the pass just run.  The result is the final `results` and the final
value of `i`, which is the number of passes run.  `none` means the fuel ran
out. -/
def mergeLoop {α : Type} (lists : List (List α)) : Nat → Nat → List α →
    Option (List α × Nat)
  | 0, _, _ => none
  | fuel + 1, i, results =>
    let st := mergePass lists i results
    if st.2 then mergeLoop lists fuel (i + 1) st.1 else some (st.1, i + 1)

/-- The length of the longest list. -/
def maxLen {α : Type} : List (List α) → Nat
  | [] => 0
  | l :: ls => max l.length (maxLen ls)

/-- The function `MultiplexedSearch`, lines 78-115, after the goroutines are
started: `events` is the trace of the `select` statement, `fuel` bounds the
passes of the merge loop.  Of `searches` the code after line 85 reads the
length only. -/
def MultiplexedSearch {α : Type} (fuel : Nat) (searches : List (String → List α))
    (events : List (ChanEvent α)) : Option (SearchResults (List α)) :=
  match collectLoop searches.length events [] with
  | none => none
  | some (lists, _) =>
    match mergeLoop lists fuel 0 [] with
    | none => none
    | some (results, _) => some ⟨results⟩

/-! ## The goroutines of MultiplexedSearch -/

/-- A step in the execution of lines 83-85,
`for _, f := range searches { go func() { items <- f(srch) }() }`:
`iterate` is the `for` loop entering its next iteration, which assigns the
next element of `searches` to `f` and runs the `go` statement; `call g` is
the goroutine started by iteration `g` evaluating `f(srch)`. -/
inductive LaunchStep where
  | iterate
  | call (g : Nat)
  deriving DecidableEq, Repr

/-- The state of that execution: the number of iterations entered (which is
the number of goroutines started), the index in `searches` of the element
that the loop variable `f` holds, and the calls made so far, each a pair of
the goroutine and the index of the adapter it called.  The closure of line
84 refers to the variable `f` of the `range` clause, one variable for the
whole loop. -/
structure LaunchState where
  started : Nat
  f : Nat
  calls : List (Nat × Nat)
  deriving DecidableEq, Repr

/-- One step, for `n = len(searches)`; `none` when the step cannot happen:
the loop is over, or the goroutine is not started yet or has called
already. -/
def launchStep (n : Nat) (st : LaunchState) : LaunchStep → Option LaunchState
  | LaunchStep.iterate =>
    if st.started < n then
      some { started := st.started + 1, f := st.started, calls := st.calls }
    else none
  | LaunchStep.call g =>
    if g < st.started ∧ g ∉ st.calls.map Prod.fst then
      some { started := st.started, f := st.f, calls := st.calls ++ [(g, st.f)] }
    else none

/-- The execution of a schedule of steps from a state. -/
def launch (n : Nat) : List LaunchStep → LaunchState → Option LaunchState
  | [], st => some st
  | step :: sched, st =>
    match launchStep n st step with
    | none => none
    | some st1 => launch n sched st1

/-- The state before the loop; no goroutine reads `f` before the first
iteration has set it. -/
def launchStart : LaunchState := { started := 0, f := 0, calls := [] }

/-- The trace of the `select` statement when the values of the calls are
received in the order of the calls, all before the timeout. -/
def sentEvents {α : Type} (srch : String) (searches : List (String → List α))
    (calls : List (Nat × Nat)) : List (ChanEvent α) :=
  calls.filterMap (fun c => searches[c.2]?.map (fun f => ChanEvent.result (f srch)))

/-! ## The provider adapters

The response types belong to the packages `iand/youtube`, `iand/eventful` and
`iand/spotify`; only the fields that search.go reads are kept. -/

/-- A link of a YouTube entry. -/
structure YoutubeLink where
  Rel : String
  Href : String
  deriving DecidableEq, Repr

/-- A thumbnail of a YouTube entry. -/
structure YoutubeThumbnail where
  Name : String
  URL : String
  deriving DecidableEq, Repr

/-- A YouTube entry: `ID.Value`, `Links`, `Media.Thumbnails`,
`Media.Duration.Seconds` and `Title.Value`. -/
structure YoutubeEntry where
  IDValue : String
  Links : List YoutubeLink
  Thumbnails : List YoutubeThumbnail
  DurationSeconds : Int
  TitleValue : String
  deriving DecidableEq, Repr

/-- A YouTube feed. -/
structure YoutubeFeed where
  Entries : List YoutubeEntry
  deriving DecidableEq, Repr

/-- An Eventful event; `Image` is `none` for a nil `Image`, and
`some none` for an image whose `Medium` is nil, else it holds `Medium.URL`. -/
structure EventfulEvent where
  ID : String
  Image : Option (Option String)
  StartTime : String
  StopTime : String
  Title : String
  URL : String
  deriving DecidableEq, Repr

/-- The result of an Eventful search. -/
structure EventfulResults where
  Events : List EventfulEvent
  deriving DecidableEq, Repr

/-- A Spotify track; `Artists` holds the artists' names and `Length` is the
value of `int(track.Length)`. -/
structure SpotifyTrack where
  URI : String
  Name : String
  Artists : List String
  Length : Int
  deriving DecidableEq, Repr

/-- The response of a Spotify track search. -/
structure SpotifyResponse where
  Tracks : List SpotifyTrack
  deriving DecidableEq, Repr

/-- A `time.Time` as search.go builds it: the instant in nanoseconds since the
Unix epoch, and whether its location is UTC (what `time.Parse` gives for a
layout without zone) or Local (what `time.Unix` gives). -/
structure GoTime where
  nanos : Int
  utc : Bool
  deriving DecidableEq, Repr

/-- The largest `time.Duration`, in nanoseconds. -/
def maxDuration : Int := 9223372036854775807

/-- The smallest `time.Duration`, in nanoseconds. -/
def minDuration : Int := -9223372036854775808

/-- The method `Time.Sub`: the difference of the two instants in nanoseconds,
replaced by the largest or smallest `time.Duration` when it does not fit. -/
def timeSub (t u : GoTime) : Int :=
  if t.nanos - u.nanos > maxDuration then maxDuration
  else if t.nanos - u.nanos < minDuration then minDuration
  else t.nanos - u.nanos

/-- The value `time.Unix(0, 0)`. -/
def unixZero : GoTime := { nanos := 0, utc := false }

/-- What search.go takes from outside: the configuration values, the provider
clients (an error is a message), the hex MD5 digest, `time.Parse` with the
layout of line 185 (the instant in nanoseconds since the epoch, a fractional
second in the input being accepted), the conversion `int(d.Seconds())` of a
`time.Duration` of `d` nanoseconds (a float64 computation),
`datastore.FakeEventPrecision` and the page fetch of `fetchTrackImage`. -/
structure Env where
  YoutubePid : String
  EventfulPid : String
  EventfulAppKey : String
  SpotifyPid : String
  md5hex : String → String
  youtubeVideoSearch : String → Except String (Option YoutubeFeed)
  eventfulSearchEvents : String → String → String → Except String EventfulResults
  spotifySearchTracks : String → Nat → Except String (Option SpotifyResponse)
  parseTime : String → Option Int
  intSeconds : Int → Int
  FakeEventPrecision : GoTime → Int
  fetchTrackImage : String → String

/-- Lines 134-140: the `Href` of the first link whose `Rel` is "self". -/
def selfLink : List YoutubeLink → String
  | [] => ""
  | link :: links => if link.Rel = "self" then link.Href else selfLink links

/-- The body of the thumbnail loop, lines 145-152, on the state
`(bestImage, bestImageName)`. -/
def thumbnailStep (st : String × String) (img : YoutubeThumbnail) : String × String :=
  if img.Name = "sddefault" ∨
      (img.Name = "hqdefault" ∧ st.2 ≠ "sddefault") ∨
      (img.Name = "mqdefault" ∧ st.2 ≠ "sddefault" ∧ st.2 ≠ "hqdefault") ∨
      (img.Name = "default " ∧ st.2 ≠ "mqdefault" ∧ st.2 ≠ "sddefault" ∧
        st.2 ≠ "hqdefault") then
    (img.URL, img.Name)
  else st

/-- The thumbnail loop, lines 142-153: the final `bestImage`. -/
def bestThumbnail (thumbnails : List YoutubeThumbnail) : String :=
  (thumbnails.foldl thumbnailStep ("", "")).1

/-- The item built from one YouTube entry, lines 130-155. -/
def youtubeItem (env : Env) (item : YoutubeEntry) : Item :=
  { Id := env.md5hex item.IDValue
    Pid := env.YoutubePid
    Event := 0
    Text := item.TitleValue
    Link := selfLink item.Links
    Media := "video"
    Image := bestThumbnail item.Thumbnails
    Duration := item.DurationSeconds }

/-- The adapter `searchYoutubeVidoes`, lines 117-160. -/
def searchYoutubeVidoes (env : Env) (srch : String) : List Item :=
  match env.youtubeVideoSearch srch with
  | Except.error _ => []
  | Except.ok none => []
  | Except.ok (some feed) => feed.Entries.map (youtubeItem env)

/-- The item built from one Eventful event, lines 175-196.  `times` is the
pair `(startTime, duration)` after lines 184-194: a start time that does not
parse gives `time.Unix(0, 0)` and the duration 0; a stop time that does not
parse leaves the duration 0; else the duration is
`int(stopTime.Sub(startTime).Seconds())`. -/
def eventfulItem (env : Env) (event : EventfulEvent) : Item :=
  let imgURL : String :=
    match event.Image with
    | some (some url) => url
    | _ => ""
  let times : GoTime × Int :=
    match env.parseTime event.StartTime with
    | none => (unixZero, 0)
    | some start =>
      let startTime : GoTime := { nanos := start, utc := true }
      match env.parseTime event.StopTime with
      | none => (startTime, 0)
      | some stop =>
        let stopTime : GoTime := { nanos := stop, utc := true }
        (startTime, env.intSeconds (timeSub stopTime startTime))
  { Id := env.md5hex event.ID
    Pid := env.EventfulPid
    Event := env.FakeEventPrecision times.1
    Text := event.Title
    Link := event.URL
    Media := "event"
    Image := imgURL
    Duration := times.2 }

/-- The adapter `searchEventfulEvents`, lines 162-200. -/
def searchEventfulEvents (env : Env) (srch : String) : List Item :=
  match env.eventfulSearchEvents env.EventfulAppKey srch "Future" with
  | Except.error _ => []
  | Except.ok results => results.Events.map (eventfulItem env)

/-- The item of lines 218-238 for a track whose first artist is `artist`. -/
def spotifyItem (env : Env) (track : SpotifyTrack) (artist : String) : Item :=
  { Id := env.md5hex track.URI
    Pid := env.SpotifyPid
    Event := 0
    Text := track.Name ++ " / " ++ artist
    Link := track.URI
    Media := "audio"
    Image := env.fetchTrackImage track.URI
    Duration := track.Length }

/-- The loop over `resp.Tracks`, lines 216-245, from the state
`(count, items)`: a track without artist is passed over, a track with one is
appended and counted, and the loop is left once `count > 15`. -/
def spotifyLoop (env : Env) : List SpotifyTrack → Nat → List Item → List Item
  | [], _, items => items
  | track :: tracks, count, items =>
    match track.Artists with
    | [] => spotifyLoop env tracks count items
    | artist :: _ =>
      let items1 := items ++ [spotifyItem env track artist]
      let count1 := count + 1
      if count1 > 15 then items1 else spotifyLoop env tracks count1 items1

/-- The adapter `searchSpotifyTracks`, lines 202-249. -/
def searchSpotifyTracks (env : Env) (srch : String) : List Item :=
  match env.spotifySearchTracks srch 1 with
  | Except.error _ => []
  | Except.ok none => []
  | Except.ok (some resp) => spotifyLoop env resp.Tracks 0 []

/-- The item a track gives, if it has an artist. -/
def spotifyItem? (env : Env) (track : SpotifyTrack) : Option Item :=
  track.Artists.head?.map (spotifyItem env track)

/-- An environment whose three provider calls all fail. -/
def failingEnv : Env :=
  { YoutubePid := "yt", EventfulPid := "ev", EventfulAppKey := "key", SpotifyPid := "sp",
    md5hex := id,
    youtubeVideoSearch := fun _ => Except.error "down",
    eventfulSearchEvents := fun _ _ _ => Except.error "down",
    spotifySearchTracks := fun _ _ => Except.error "down",
    parseTime := fun _ => none,
    intSeconds := fun d => Int.tdiv d 1000000000,
    FakeEventPrecision := fun t => t.nanos,
    fetchTrackImage := fun _ => "" }

/-- The tracks of a successful Spotify response; a nil response has none. -/
def responseTracks : Option SpotifyResponse → List SpotifyTrack
  | none => []
  | some resp => resp.Tracks

/-- A response of eighteen tracks, the second of which has no artist. -/
def sampleResponse : SpotifyResponse :=
  { Tracks := (List.range 18).map (fun k =>
      { URI := "spotify:track:" ++ toString k
        Name := "track"
        Artists := if k = 1 then [] else ["artist"]
        Length := 200 }) }

/-- An environment whose Spotify call answers with `sampleResponse`. -/
def sampleEnv : Env :=
  { failingEnv with spotifySearchTracks := fun _ _ => Except.ok (some sampleResponse) }

/-- Two adapters, `A` before `B`: `A` returns the item 1 and `B` the item 2. -/
def twoAdapters : List (String → List Nat) :=
  [fun _ => [1], fun _ => [2]]

/-! ## The round-robin interleave, as the specification words it -/

/-- Round `i` of the interleave: the `i`-th elements of exactly those lists
whose length exceeds `i`, in the order of the lists. -/
def roundAt {α : Type} (L : List (List α)) (i : Nat) : List α :=
  L.filterMap (fun l => l[i]?)

/-- The concatenation of the rounds `0, 1, ..., n - 1`. -/
def interleave {α : Type} (L : List (List α)) (n : Nat) : List α :=
  (List.range n).flatMap (roundAt L)

/-- The events a trace holds when the adapters whose results are `outs`
(in the configured order) report in the order `arrival` (adapter indices). -/
def arrivalEvents {α : Type} (outs : List (List α)) (arrival : List Nat) :
    List (ChanEvent α) :=
  arrival.filterMap (fun j => outs[j]?.map ChanEvent.result)

/-! ## Lemmas on the merge loop -/

theorem roundAt_cons {α : Type} (l : List α) (L : List (List α)) (i : Nat) :
    roundAt (l :: L) i = l[i]?.toList ++ roundAt L i := by
  unfold roundAt
  cases h : l[i]? <;> simp [List.filterMap_cons, h]

theorem roundAt_eq_nil_iff {α : Type} (L : List (List α)) (i : Nat) :
    roundAt L i = [] ↔ maxLen L ≤ i := by
  induction L with
  | nil => simp [roundAt, maxLen]
  | cons l L ih =>
    rw [roundAt_cons, List.append_eq_nil, ih, maxLen, Nat.max_le]
    constructor
    · rintro ⟨h1, h2⟩
      refine ⟨?_, h2⟩
      by_contra hlt
      have hi : i < l.length := by omega
      simp [List.getElem?_eq_getElem hi] at h1
    · rintro ⟨h1, h2⟩
      exact ⟨by simp [List.getElem?_eq_none h1], h2⟩

/-- One pass appends round `i` and raises the flag when the round is not
empty, from any starting state of the inner loop. -/
theorem mergePass_fold {α : Type} (lists : List (List α)) (i : Nat) (st : List α × Bool) :
    lists.foldl
      (fun st list =>
        if h : i < list.length then (st.1 ++ [list[i]], true) else st) st
      = (st.1 ++ roundAt lists i, st.2 || !(roundAt lists i).isEmpty) := by
  induction lists generalizing st with
  | nil => simp [roundAt]
  | cons l L ih =>
    rw [List.foldl_cons, ih, roundAt_cons]
    by_cases h : i < l.length
    · simp [h, List.getElem?_eq_getElem h]
    · have h2 : l.length ≤ i := by omega
      simp [h, List.getElem?_eq_none h2]

theorem mergePass_eq {α : Type} (lists : List (List α)) (i : Nat) (results : List α) :
    mergePass lists i results
      = (results ++ roundAt lists i, !(roundAt lists i).isEmpty) := by
  unfold mergePass
  rw [mergePass_fold]
  simp

theorem mergePass_flag {α : Type} (lists : List (List α)) (i : Nat) (results : List α) :
    (mergePass lists i results).2 = true ↔ i < maxLen lists := by
  rw [mergePass_eq]
  have := roundAt_eq_nil_iff lists i
  cases h : roundAt lists i with
  | nil => simp [h] at this ⊢; exact this
  | cons a t => simp [h] at this ⊢; exact this

/-- The merge loop started at pass `i` runs the remaining non-empty rounds and
one more pass, provided the fuel covers them. -/
theorem mergeLoop_from {α : Type} (lists : List (List α)) :
    ∀ (fuel i : Nat) (results : List α), maxLen lists - i < fuel →
      mergeLoop lists fuel i results
        = some (results ++ (List.range' i (maxLen lists - i)).flatMap (roundAt lists),
            max i (maxLen lists) + 1) := by
  intro fuel
  induction fuel with
  | zero => intro i results h; omega
  | succ fuel ih =>
    intro i results h
    unfold mergeLoop
    by_cases hi : i < maxLen lists
    · have hflag := (mergePass_flag lists i results).2 hi
      simp only [hflag, if_true]
      rw [ih (i + 1) _ (by omega), mergePass_eq]
      have e : maxLen lists - i = (maxLen lists - (i + 1)) + 1 := by omega
      rw [e, List.range'_succ, List.flatMap_cons]
      simp only [List.append_assoc]
      congr 2
      omega
    · have hflag : (mergePass lists i results).2 = false := by
        rw [Bool.eq_false_iff, Ne, mergePass_flag]; exact hi
      have hnil : roundAt lists i = [] := (roundAt_eq_nil_iff lists i).2 (by omega)
      have e : maxLen lists - i = 0 := by omega
      simp only [hflag, mergePass_eq, hnil, e]
      simp
      omega

/-- Rounds at or beyond the longest length are empty, so the interleave does
not change once `n` covers the longest list. -/
theorem interleave_stable {α : Type} (L : List (List α)) (n : Nat) (h : maxLen L ≤ n) :
    interleave L n = interleave L (maxLen L) := by
  induction n with
  | zero =>
    have : maxLen L = 0 := by omega
    rw [this]
  | succ n ih =>
    by_cases hn : maxLen L ≤ n
    · rw [← ih hn]
      unfold interleave
      rw [List.range_succ, List.flatMap_append]
      simp [(roundAt_eq_nil_iff L n).2 hn]
    · have : maxLen L = n + 1 := by omega
      rw [this]

theorem mergeLoop_eq_interleave {α : Type} (lists : List (List α)) (fuel n : Nat)
    (hf : maxLen lists < fuel) (hn : maxLen lists ≤ n) :
    mergeLoop lists fuel 0 [] = some (interleave lists n, maxLen lists + 1) := by
  rw [mergeLoop_from lists fuel 0 [] (by omega), interleave_stable lists n hn]
  simp [interleave, List.range_eq_range']

/-! ## Lemmas on the interleave -/

theorem length_le_maxLen {α : Type} (L : List (List α)) (l : List α) (h : l ∈ L) :
    l.length ≤ maxLen L := by
  induction L with
  | nil => cases h
  | cons m L ih =>
    rw [maxLen]
    rcases List.mem_cons.1 h with rfl | h
    · exact Nat.le_max_left _ _
    · exact Nat.le_trans (ih h) (Nat.le_max_right _ _)

/-- Reading a list index by index over a range that covers it gives the list
back. -/
theorem flatMap_getElem?_range {α : Type} (l : List α) :
    ∀ n : Nat, l.length ≤ n → (List.range n).flatMap (fun i => l[i]?.toList) = l := by
  induction l with
  | nil =>
    intro n _
    induction n with
    | zero => rfl
    | succ n ih => rw [List.range_succ, List.flatMap_append, ih (Nat.zero_le n)]; simp
  | cons a l ih =>
    intro n h
    cases n with
    | zero => simp at h
    | succ n =>
      have hn : l.length ≤ n := by simpa using h
      rw [List.range_succ_eq_map, List.flatMap_cons, List.flatMap_map]
      have e : (List.range n).flatMap (fun i => (a :: l)[i.succ]?.toList)
          = (List.range n).flatMap (fun i => l[i]?.toList) := by
        congr 1
        funext i
        simp
      rw [e, ih n hn]
      simp

theorem sublist_flatMap {ι β : Type} (xs : List ι) (f g : ι → List β)
    (h : ∀ x ∈ xs, (f x).Sublist (g x)) : (xs.flatMap f).Sublist (xs.flatMap g) := by
  induction xs with
  | nil => simp
  | cons x xs ih =>
    rw [List.flatMap_cons, List.flatMap_cons]
    exact List.Sublist.append (h x (List.mem_cons_self _ _))
      (ih (fun y hy => h y (List.mem_cons_of_mem _ hy)))

theorem toList_sublist_roundAt {α : Type} (L : List (List α)) (l : List α) (h : l ∈ L)
    (i : Nat) : (l[i]?.toList).Sublist (roundAt L i) := by
  induction L with
  | nil => cases h
  | cons m L ih =>
    rw [roundAt_cons]
    rcases List.mem_cons.1 h with rfl | h
    · exact List.sublist_append_left _ _
    · exact (ih h).trans (List.sublist_append_right _ _)

theorem sublist_interleave {α : Type} (L : List (List α)) (l : List α) (h : l ∈ L)
    (n : Nat) (hn : maxLen L ≤ n) : l.Sublist (interleave L n) := by
  have hl : l.length ≤ n := Nat.le_trans (length_le_maxLen L l h) hn
  have e := flatMap_getElem?_range l n hl
  rw [← e]
  exact sublist_flatMap _ _ _ (fun i _ => toList_sublist_roundAt L l h i)

theorem interleave_nil {α : Type} (n : Nat) : interleave ([] : List (List α)) n = [] := by
  induction n with
  | zero => rfl
  | succ n ih =>
    unfold interleave at ih ⊢
    rw [List.range_succ, List.flatMap_append, ih]
    simp [roundAt]

theorem interleave_perm_flatten {α : Type} (L : List (List α)) :
    ∀ n : Nat, maxLen L ≤ n → (interleave L n).Perm L.flatten := by
  induction L with
  | nil => intro n _; rw [interleave_nil]; exact List.Perm.refl _
  | cons l L ih =>
    intro n hn
    rw [maxLen, Nat.max_le] at hn
    have e : interleave (l :: L) n
        = (List.range n).flatMap (fun i => l[i]?.toList ++ roundAt L i) := by
      unfold interleave
      congr 1
      funext i
      exact roundAt_cons l L i
    rw [e, List.flatten_cons]
    refine (List.flatMap_append_perm (List.range n) (fun i => l[i]?.toList) (roundAt L)).symm.trans
      ?_
    rw [flatMap_getElem?_range l n hn.1]
    exact (ih n hn.2).append_left l

/-- A sublist keeps the relative order of any two positions. -/
theorem sublist_positions {α : Type} (l m : List α) (h : l.Sublist m) (p q : Nat) (hpq : p < q)
    (hq : q < l.length) :
    ∃ (p1 q1 : Nat) (hp1 : p1 < m.length) (hq1 : q1 < m.length),
      p1 < q1 ∧ m[p1] = l[p] ∧ m[q1] = l[q] := by
  obtain ⟨f, hf⟩ := List.sublist_iff_exists_fin_orderEmbedding_get_eq.1 h
  have hp : p < l.length := by omega
  refine ⟨(f ⟨p, hp⟩).1, (f ⟨q, hq⟩).1, (f ⟨p, hp⟩).2, (f ⟨q, hq⟩).2, ?_, ?_, ?_⟩
  · have : f ⟨p, hp⟩ < f ⟨q, hq⟩ := f.lt_iff_lt.2 (by simpa using hpq)
    exact this
  · have := hf ⟨p, hp⟩
    simpa using this.symm
  · have := hf ⟨q, hq⟩
    simpa using this.symm

/-! ## Lemmas on the collection loop -/

/-- When the next `n` events are all results, the loop appends them in the
order of arrival and leaves the rest of the trace. -/
theorem collectLoop_results {α : Type} (rs : List (List α)) :
    ∀ (lists : List (List α)) (rest : List (ChanEvent α)),
      collectLoop rs.length (rs.map ChanEvent.result ++ rest) lists
        = some (lists ++ rs, rest) := by
  induction rs with
  | nil => intro lists rest; simp [collectLoop]
  | cons r rs ih =>
    intro lists rest
    have e : collectLoop (rs.length + 1) (ChanEvent.result r :: (rs.map ChanEvent.result ++ rest))
        lists = collectLoop rs.length (rs.map ChanEvent.result ++ rest) (lists ++ [r]) := rfl
    rw [List.length_cons, List.map_cons, List.cons_append, e, ih]
    simp

theorem arrivalEvents_eq {α : Type} (outs : List (List α)) (arrival : List Nat) :
    arrivalEvents outs arrival
      = (arrival.filterMap (fun j => outs[j]?)).map ChanEvent.result := by
  unfold arrivalEvents
  rw [List.map_filterMap]

theorem filterMap_getElem?_range {α : Type} (outs : List α) :
    (List.range outs.length).filterMap (fun j => outs[j]?) = outs := by
  induction outs with
  | nil => rfl
  | cons a outs ih =>
    rw [List.length_cons, List.range_succ_eq_map, List.filterMap_cons]
    simp only [List.getElem?_cons_zero, List.filterMap_map]
    have e : (fun j => (a :: outs)[j]?) ∘ Nat.succ = fun j => outs[j]? := by
      funext j; simp
    rw [e, ih]

/-- The results taken in an arrival order that names every adapter once are a
rearrangement of the results in the configured order. -/
theorem arrival_perm {α : Type} (outs : List α) (arrival : List Nat)
    (h : arrival.Perm (List.range outs.length)) :
    (arrival.filterMap (fun j => outs[j]?)).Perm outs := by
  have := h.filterMap (fun j => outs[j]?)
  rwa [filterMap_getElem?_range] at this

theorem maxLen_perm {α : Type} (L M : List (List α)) (h : L.Perm M) : maxLen L = maxLen M := by
  induction h with
  | nil => rfl
  | cons x _ ih => simp [maxLen, ih]
  | swap x y l => simp only [maxLen]; omega
  | trans _ _ ih1 ih2 => exact ih1.trans ih2

/-! ## Lemmas on the Spotify loop -/

theorem spotifyLoop_eq (env : Env) (tracks : List SpotifyTrack) :
    ∀ (count : Nat) (items : List Item), count ≤ 15 →
      spotifyLoop env tracks count items
        = items ++ (tracks.filterMap (spotifyItem? env)).take (16 - count) := by
  induction tracks with
  | nil => intro count items _; simp [spotifyLoop]
  | cons track tracks ih =>
    intro count items hc
    unfold spotifyLoop
    cases hA : track.Artists with
    | nil =>
      have e : spotifyItem? env track = none := by simp [spotifyItem?, hA]
      simp only [List.filterMap_cons, e]
      exact ih count items hc
    | cons artist more =>
      have e : spotifyItem? env track = some (spotifyItem env track artist) := by
        simp [spotifyItem?, hA]
      simp only [List.filterMap_cons, e]
      have e16 : 16 - count = (15 - count) + 1 := by omega
      rw [e16, List.take_succ_cons]
      by_cases h15 : count + 1 > 15
      · have : 15 - count = 0 := by omega
        simp [h15, this]
      · simp only [h15, if_false]
        rw [ih (count + 1) _ (by omega)]
        have : 16 - (count + 1) = 15 - count := by omega
        rw [this]
        simp

theorem length_filterMap_spotifyItem? (env : Env) (tracks : List SpotifyTrack) :
    (tracks.filterMap (spotifyItem? env)).length
      = (tracks.filter (fun t => !t.Artists.isEmpty)).length := by
  induction tracks with
  | nil => rfl
  | cons t ts ih =>
    cases hA : t.Artists with
    | nil => simp [List.filterMap_cons, List.filter_cons, spotifyItem?, hA, ih]
    | cons a more => simp [List.filterMap_cons, List.filter_cons, spotifyItem?, hA, ih]

/-! ## The claims -/

/-- C1: the merge loop of `MultiplexedSearch` returns the round-robin
interleave of the collected lists: for any `n` that covers the longest list,
the concatenation over `i = 0, ..., n - 1` of the `i`-th elements of the lists
longer than `i`, in the order of `lists`; the loop ends after one pass more
than the longest length.  In particular `[[a0, a1, a2], [b0], []]` merges to
`[a0, b0, a1, a2]`. -/
theorem merge_is_round_robin {α : Type} (lists : List (List α)) (fuel n : Nat)
    (hf : maxLen lists < fuel) (hn : maxLen lists ≤ n) :
    mergeLoop lists fuel 0 [] = some (interleave lists n, maxLen lists + 1) ∧
    ∀ (a0 a1 a2 b0 : α) (k : Nat),
      mergeLoop [[a0, a1, a2], [b0], []] (4 + k) 0 [] = some ([a0, b0, a1, a2], 4) := by
  refine ⟨mergeLoop_eq_interleave lists fuel n hf hn, ?_⟩
  intro a0 a1 a2 b0 k
  have hm : maxLen [[a0, a1, a2], [b0], []] = 3 := by simp [maxLen]
  rw [mergeLoop_eq_interleave [[a0, a1, a2], [b0], []] (4 + k) 3 (by omega) (by omega), hm]
  rfl

theorem merge_is_round_robin_witness :
    (maxLen [[1, 2, 3], [10], []] < 4 ∧ maxLen [[1, 2, 3], [10], []] ≤ 5) ∧
    mergeLoop [[1, 2, 3], [10], []] 4 0 [] = some (interleave [[1, 2, 3], [10], []] 5, 4) :=
  ⟨⟨by decide, by decide⟩,
    (merge_is_round_robin [[1, 2, 3], [10], []] 4 5 (by decide) (by decide)).1⟩

/-- C2, as the code has it: when every adapter reports once before the
timeout, the merged output is the round-robin interleave of the adapters'
result lists taken in the order of arrival on the channel; the configured
order of `searches` plays no part, a rearranged `searches` gives the same
output on the same trace. -/
theorem merge_follows_arrival_order {α : Type} (searches : List (String → List α))
    (srch : String) (arrival : List Nat) (rest : List (ChanEvent α)) (fuel n : Nat)
    (harr : arrival.Perm (List.range searches.length))
    (hf : maxLen (searches.map (fun f => f srch)) < fuel)
    (hn : maxLen (searches.map (fun f => f srch)) ≤ n) :
    MultiplexedSearch fuel searches
        (arrivalEvents (searches.map (fun f => f srch)) arrival ++ rest)
      = some ⟨interleave (arrival.filterMap
          (fun j => (searches.map (fun f => f srch))[j]?)) n⟩ ∧
    ∀ searches2 : List (String → List α), searches2.Perm searches →
      MultiplexedSearch fuel searches2
          (arrivalEvents (searches.map (fun f => f srch)) arrival ++ rest)
        = MultiplexedSearch fuel searches
          (arrivalEvents (searches.map (fun f => f srch)) arrival ++ rest) := by
  have hlen : (searches.map (fun f => f srch)).length = searches.length := List.length_map _ _
  have hperm := arrival_perm (searches.map (fun f => f srch)) arrival (by rw [hlen]; exact harr)
  have hmax := maxLen_perm _ _ hperm
  have hrs : (arrival.filterMap (fun j => (searches.map (fun f => f srch))[j]?)).length
      = searches.length := by rw [hperm.length_eq, hlen]
  constructor
  · unfold MultiplexedSearch
    rw [arrivalEvents_eq, ← hrs, collectLoop_results]
    simp only [List.nil_append]
    rw [mergeLoop_eq_interleave
      (arrival.filterMap (fun j => (searches.map (fun f => f srch))[j]?)) fuel n
      (by rw [hmax]; exact hf) (by rw [hmax]; exact hn)]
  · intro searches2 h2
    unfold MultiplexedSearch
    rw [h2.length_eq]

theorem merge_follows_arrival_order_witness :
    ([1, 0].Perm (List.range twoAdapters.length) ∧
      maxLen (twoAdapters.map (fun f => f "q")) < 2 ∧
      maxLen (twoAdapters.map (fun f => f "q")) ≤ 1) ∧
    MultiplexedSearch 2 twoAdapters
        (arrivalEvents (twoAdapters.map (fun f => f "q")) [1, 0] ++ [ChanEvent.timeout])
      = some ⟨interleave ([1, 0].filterMap
          (fun j => (twoAdapters.map (fun f => f "q"))[j]?)) 1⟩ :=
  ⟨⟨by decide, by decide, by decide⟩,
    (merge_follows_arrival_order twoAdapters "q" [1, 0] [ChanEvent.timeout] 2 1
      (by decide) (by decide) (by decide)).1⟩

/-- C2 as stated fails: with `A` before `B` in `searches` and both reporting
before the timeout, the arrival order `B, A` gives `[b0, a0]` and the arrival
order `A, B` gives `[a0, b0]`. -/
theorem arrival_order_changes_merge :
    MultiplexedSearch 2 twoAdapters (arrivalEvents (twoAdapters.map (fun f => f "q")) [1, 0])
      = some ⟨[2, 1]⟩ ∧
    MultiplexedSearch 2 twoAdapters (arrivalEvents (twoAdapters.map (fun f => f "q")) [0, 1])
      = some ⟨[1, 2]⟩ ∧
    MultiplexedSearch 2 twoAdapters (arrivalEvents (twoAdapters.map (fun f => f "q")) [1, 0])
      ≠ MultiplexedSearch 2 twoAdapters
          (arrivalEvents (twoAdapters.map (fun f => f "q")) [0, 1]) := by
  decide

/-- C3 fails on the code: with two adapters, a timeout tick followed by a
result, the loop waits a second time and appends the late result, which is
then merged. -/
theorem late_result_is_collected :
    collectLoop 2 [ChanEvent.timeout, ChanEvent.result [7]] ([] : List (List Nat))
      = some ([[7]], []) ∧
    MultiplexedSearch 2 twoAdapters [ChanEvent.timeout, ChanEvent.result [7]]
      = some ⟨[7]⟩ := by
  decide

/-- C4: every collected list is a subsequence of the merged output, so two
items at positions `p < q` of one collected list appear in the merged output
at positions `p1 < q1`. -/
theorem merge_preserves_provider_order {α : Type} (lists : List (List α)) (fuel : Nat)
    (hf : maxLen lists < fuel) :
    ∃ merged : List α,
      mergeLoop lists fuel 0 [] = some (merged, maxLen lists + 1) ∧
      ∀ l ∈ lists, l.Sublist merged ∧
        ∀ (p q : Nat), p < q → ∀ (hq : q < l.length) (hp : p < l.length),
          ∃ (p1 q1 : Nat) (hp1 : p1 < merged.length) (hq1 : q1 < merged.length),
            p1 < q1 ∧ merged[p1] = l[p] ∧ merged[q1] = l[q] := by
  refine ⟨interleave lists (maxLen lists),
    mergeLoop_eq_interleave lists fuel _ hf (Nat.le_refl _), ?_⟩
  intro l hl
  have hsub := sublist_interleave lists l hl (maxLen lists) (Nat.le_refl _)
  refine ⟨hsub, ?_⟩
  intro p q hpq hq _
  exact sublist_positions l _ hsub p q hpq hq

theorem merge_preserves_provider_order_witness :
    maxLen [[1, 2, 3], [10], []] < 4 ∧
    ∃ merged : List Nat,
      mergeLoop [[1, 2, 3], [10], []] 4 0 [] = some (merged, maxLen [[1, 2, 3], [10], []] + 1) ∧
      ∀ l ∈ [[1, 2, 3], [10], []], l.Sublist merged ∧
        ∀ (p q : Nat), p < q → ∀ (hq : q < l.length) (hp : p < l.length),
          ∃ (p1 q1 : Nat) (hp1 : p1 < merged.length) (hq1 : q1 < merged.length),
            p1 < q1 ∧ merged[p1] = l[p] ∧ merged[q1] = l[q] :=
  ⟨by decide, merge_preserves_provider_order [[1, 2, 3], [10], []] 4 (by decide)⟩

/-- C5: the merged output is a permutation of the concatenation of the
collected lists: its length is the sum of their lengths and every item occurs
in it as many times as in all the collected lists together. -/
theorem merge_is_permutation {α : Type} [DecidableEq α] (lists : List (List α)) (fuel : Nat)
    (hf : maxLen lists < fuel) :
    ∃ merged : List α,
      mergeLoop lists fuel 0 [] = some (merged, maxLen lists + 1) ∧
      merged.Perm lists.flatten ∧
      merged.length = (lists.map List.length).sum ∧
      ∀ a : α, merged.count a = (lists.map (List.count a)).sum := by
  refine ⟨interleave lists (maxLen lists),
    mergeLoop_eq_interleave lists fuel _ hf (Nat.le_refl _), ?_⟩
  have hperm := interleave_perm_flatten lists (maxLen lists) (Nat.le_refl _)
  refine ⟨hperm, ?_, ?_⟩
  · rw [hperm.length_eq, List.length_flatten]
  · intro a
    rw [hperm.count_eq, List.count_flatten]

theorem merge_is_permutation_witness :
    maxLen [[1, 2, 3], [1], []] < 4 ∧
    ∃ merged : List Nat,
      mergeLoop [[1, 2, 3], [1], []] 4 0 [] = some (merged, maxLen [[1, 2, 3], [1], []] + 1) ∧
      merged.Perm [[1, 2, 3], [1], []].flatten ∧
      merged.length = ([[1, 2, 3], [1], []].map List.length).sum ∧
      ∀ a : Nat, merged.count a = ([[1, 2, 3], [1], []].map (List.count a)).sum :=
  ⟨by decide, merge_is_permutation [[1, 2, 3], [1], []] 4 (by decide)⟩

/-- C6 fails on the code: with two adapters `A`, `B`, when the loop enters
both iterations before either goroutine evaluates `f(srch)`, both goroutines
read the loop variable after its last assignment and call `B`; `A` is never
called, the channel carries the result of `B` twice and the merged output is
`[b0, b0]`.  In the execution where each goroutine calls before the next
iteration is entered, every adapter gets its own call. -/
theorem goroutines_read_shared_loop_variable :
    (launch 2 [LaunchStep.iterate, LaunchStep.iterate, LaunchStep.call 0, LaunchStep.call 1]
        launchStart).map LaunchState.calls = some [(0, 1), (1, 1)] ∧
    sentEvents "q" twoAdapters [(0, 1), (1, 1)]
      = [ChanEvent.result [2], ChanEvent.result [2]] ∧
    MultiplexedSearch 2 twoAdapters (sentEvents "q" twoAdapters [(0, 1), (1, 1)])
      = some ⟨[2, 2]⟩ ∧
    (launch 2 [LaunchStep.iterate, LaunchStep.call 0, LaunchStep.iterate, LaunchStep.call 1]
        launchStart).map LaunchState.calls = some [(0, 0), (1, 1)] := by
  decide

/-- C7: each of the three adapters returns the empty list when its provider
call returns an error; the adapters return a plain list, so no error reaches
the caller. -/
theorem adapters_fail_soft (env : Env) (srch : String) :
    (∀ e : String, env.youtubeVideoSearch srch = Except.error e →
      searchYoutubeVidoes env srch = []) ∧
    (∀ e : String, env.eventfulSearchEvents env.EventfulAppKey srch "Future" = Except.error e →
      searchEventfulEvents env srch = []) ∧
    (∀ e : String, env.spotifySearchTracks srch 1 = Except.error e →
      searchSpotifyTracks env srch = []) := by
  refine ⟨?_, ?_, ?_⟩
  · intro e h; simp [searchYoutubeVidoes, h]
  · intro e h; simp [searchEventfulEvents, h]
  · intro e h; simp [searchSpotifyTracks, h]

theorem adapters_fail_soft_witness :
    searchYoutubeVidoes failingEnv "beatles" = [] ∧
    searchEventfulEvents failingEnv "beatles" = [] ∧
    searchSpotifyTracks failingEnv "beatles" = [] :=
  ⟨(adapters_fail_soft failingEnv "beatles").1 "down" rfl,
    (adapters_fail_soft failingEnv "beatles").2.1 "down" rfl,
    (adapters_fail_soft failingEnv "beatles").2.2 "down" rfl⟩

/-- C8 fails on the code: a thumbnail named "default" is never chosen, the
loop compares the name with "default " (with a trailing blank), so an entry
whose only thumbnail is the "default" one gets the empty image. -/
theorem default_thumbnail_is_not_chosen :
    bestThumbnail [⟨"default", "http://img/default.jpg"⟩] = "" ∧
    bestThumbnail [⟨"default ", "http://img/default.jpg"⟩] = "http://img/default.jpg" := by
  decide

/-- C9: on a successful response `searchSpotifyTracks` returns the items of
the first sixteen tracks that have an artist, in response order; tracks
without artist give no item and do not count, so the length is `min 16 m`
with `m` the number of tracks with an artist, at most 16. -/
theorem spotify_returns_first_sixteen (env : Env) (srch : String)
    (resp : Option SpotifyResponse)
    (h : env.spotifySearchTracks srch 1 = Except.ok resp) :
    searchSpotifyTracks env srch
      = ((responseTracks resp).filterMap (spotifyItem? env)).take 16 ∧
    (searchSpotifyTracks env srch).length
      = min 16 ((responseTracks resp).filter (fun t => !t.Artists.isEmpty)).length ∧
    (searchSpotifyTracks env srch).length ≤ 16 := by
  have e : searchSpotifyTracks env srch
      = ((responseTracks resp).filterMap (spotifyItem? env)).take 16 := by
    unfold searchSpotifyTracks
    rw [h]
    cases resp with
    | none => simp [responseTracks]
    | some r =>
      simp only [responseTracks]
      rw [spotifyLoop_eq env r.Tracks 0 [] (by omega)]
      simp
  refine ⟨e, ?_, ?_⟩
  · rw [e, List.length_take, length_filterMap_spotifyItem?]
  · rw [e, List.length_take]
    exact Nat.min_le_left _ _

theorem spotify_returns_first_sixteen_witness :
    sampleEnv.spotifySearchTracks "beatles" 1 = Except.ok (some sampleResponse) ∧
    (searchSpotifyTracks sampleEnv "beatles").length
      = min 16 ((responseTracks (some sampleResponse)).filter
          (fun t => !t.Artists.isEmpty)).length :=
  ⟨rfl, (spotify_returns_first_sixteen sampleEnv "beatles" (some sampleResponse) rfl).2.1⟩

/-- C10: with no adapter, whatever the trace, the collection loop completes
without a single `select` (the whole trace is left), the merge loop ends after
one pass, and `MultiplexedSearch` returns the empty list. -/
theorem zero_adapters_returns_empty {α : Type} (fuel : Nat) (events : List (ChanEvent α)) :
    MultiplexedSearch (fuel + 1) ([] : List (String → List α)) events = some ⟨[]⟩ ∧
    collectLoop 0 events ([] : List (List α)) = some ([], events) ∧
    mergeLoop ([] : List (List α)) (fuel + 1) 0 [] = some ([], 1) := by
  refine ⟨?_, ?_, ?_⟩
  · simp [MultiplexedSearch, collectLoop, mergeLoop, mergePass]
  · simp [collectLoop]
  · simp [mergeLoop, mergePass]

end Search
